import Mathlib

/-!
Shallow embedding of the Snake game engine from `snake_game/game.py`.

Pure data (`Point`, `Direction`, `GameState`) is translated directly.  The
mutable `SnakeGame` object becomes a record, and every mutating method becomes
a function returning the updated record.  The single source of randomness,
`random.choice(empty_cells)`, is externalised as an index argument `r : Nat`
reduced modulo the candidate-list length, so every run of the engine is the
deterministic image of a seed sequence.
-/

/-- `Point`: immutable integer pair, value equality (`@dataclass(frozen=True)`). -/
structure Point where
  x : Int
  y : Int
deriving DecidableEq

instance : Inhabited Point := ⟨⟨0, 0⟩⟩

/-- `Point.translate(dx, dy)`. -/
def Point.translate (p : Point) (dx dy : Int) : Point :=
  ⟨p.x + dx, p.y + dy⟩

/-- The four directions of `Direction(Enum)`. -/
inductive Direction where
  | UP
  | DOWN
  | LEFT
  | RIGHT
deriving DecidableEq

/-- `Direction.delta`: the unit vector attached to each enum member. -/
def Direction.delta : Direction → Int × Int
  | .UP => (0, -1)
  | .DOWN => (0, 1)
  | .LEFT => (-1, 0)
  | .RIGHT => (1, 0)

/-- `Direction.is_opposite(other)`: deltas are additive inverses. -/
def Direction.is_opposite (d other : Direction) : Bool :=
  decide (d.delta.1 = -other.delta.1 ∧ d.delta.2 = -other.delta.2)

/-- `GameState(Enum)`: outcome of one `_update` tick. -/
inductive GameState where
  | RUNNING
  | COLLISION
  | WIN
deriving DecidableEq

/-- The mutable state of a `SnakeGame` instance: board dimensions and speed
(set in `__init__`), the snake as an ordered body (`deque`, head first) plus
the companion membership set `snake_positions`, current and pending direction,
the optional food cell, score and the UI flags. -/
structure SnakeGame where
  width : Int
  height : Int
  speed : Int
  snake : List Point
  snake_positions : Finset Point
  direction : Direction
  next_direction : Direction
  food : Option Point
  score : Int
  paused : Bool
  quit_requested : Bool
  needs_redraw : Bool
deriving DecidableEq

/-- `SnakeGame.__init__(width, height, speed)`: validates the configuration and
builds the pre-reset state; `none` models the raised `ValueError`
(the spec's `ConfigurationError`). -/
def SnakeGame.init (width height speed : Int) : Option SnakeGame :=
  if width < 10 ∨ height < 10 then none
  else if speed < 1 ∨ 30 < speed then none
  else some
    { width := width
      height := height
      speed := speed
      snake := []
      snake_positions := ∅
      direction := .RIGHT
      next_direction := .RIGHT
      food := none
      score := 0
      paused := false
      quit_requested := false
      needs_redraw := true }

/-- The list comprehension inside `_spawn_food`: every board cell, row by row,
that is not in `snake_positions`. -/
def SnakeGame.empty_cells (g : SnakeGame) : List Point :=
  (List.range g.height.toNat).flatMap fun (y : Nat) =>
    ((List.range g.width.toNat).map fun (x : Nat) =>
        (⟨(x : Int), (y : Int)⟩ : Point)).filter
      fun c => decide (c ∉ g.snake_positions)

/-- `_spawn_food()`: `random.choice(empty_cells) if empty_cells else None`,
with the random draw externalised as the index `r % len(empty_cells)`. -/
def SnakeGame.spawn_food (g : SnakeGame) (r : Nat) : SnakeGame :=
  let cells := g.empty_cells
  { g with food := cells.get? (r % cells.length) }

/-- `_reset_game()`: three horizontally aligned segments centred on the board,
head first and rightmost, moving RIGHT, fresh score and flags, then spawn food.
Python `//` is floor division, hence `Int.fdiv`. -/
def SnakeGame.reset_game (g : SnakeGame) (r : Nat) : SnakeGame :=
  let mid_x := Int.fdiv g.width 2
  let mid_y := Int.fdiv g.height 2
  let body : List Point := [⟨mid_x, mid_y⟩, ⟨mid_x - 1, mid_y⟩, ⟨mid_x - 2, mid_y⟩]
  SnakeGame.spawn_food
    { g with
      snake := body
      snake_positions := body.toFinset
      direction := .RIGHT
      next_direction := .RIGHT
      score := 0
      paused := false
      quit_requested := false
      needs_redraw := true } r

/-- The inputs `_handle_key` distinguishes: a direction key (the
arrow/WASD lookup table is input collection, out of scope), pause, quit, or
any other key (a no-op). -/
inductive KeyInput where
  | dir (d : Direction)
  | pause
  | quit
  | other
deriving DecidableEq

/-- `_handle_key(key)`: a direction key replaces `next_direction` only when it
is neither opposite nor equal to the current direction; `p` toggles pause, `q`
requests quit, anything else is ignored. -/
def SnakeGame.handle_key (g : SnakeGame) (k : KeyInput) : SnakeGame :=
  match k with
  | .dir new_direction =>
      if ¬ new_direction.is_opposite g.direction ∧ new_direction ≠ g.direction then
        { g with next_direction := new_direction, needs_redraw := true }
      else g
  | .pause => { g with paused := ! g.paused, needs_redraw := true }
  | .quit => { g with quit_requested := true }
  | .other => g

/-- The wall check of `_update` line 201: `0 <= x < width and 0 <= y < height`. -/
def SnakeGame.inBounds (g : SnakeGame) (p : Point) : Prop :=
  0 ≤ p.x ∧ p.x < g.width ∧ 0 ≤ p.y ∧ p.y < g.height

instance (g : SnakeGame) (p : Point) : Decidable (g.inBounds p) := by
  unfold SnakeGame.inBounds; infer_instance

/-- The head the next tick will move to: `snake[0]` translated by the delta of
the direction about to be committed (`next_direction`). -/
def SnakeGame.nextHead (g : SnakeGame) : Point :=
  g.snake.headI.translate g.next_direction.delta.1 g.next_direction.delta.2

/-- `_update()`: the tick transition function, returning the `GameState`
outcome together with the updated engine state.  `r` seeds the food respawn
on a growing tick. -/
def SnakeGame.update (g0 : SnakeGame) (r : Nat) : GameState × SnakeGame :=
  match g0.food with
  | none => (GameState.WIN, g0)
  | some f =>
    let g1 := { g0 with direction := g0.next_direction }
    let new_head := g1.snake.headI.translate g1.direction.delta.1 g1.direction.delta.2
    if ¬ g1.inBounds new_head then
      (GameState.COLLISION, g1)
    else
      let tail := g1.snake.getLastI
      if new_head ∈ g1.snake_positions ∧ ¬ (¬ new_head = f ∧ new_head = tail) then
        (GameState.COLLISION, g1)
      else
        let g2 :=
          if new_head = f then g1
          else
            { g1 with
              snake := g1.snake.dropLast
              snake_positions := g1.snake_positions.erase tail }
        let g3 :=
          { g2 with
            snake := new_head :: g2.snake
            snake_positions := insert new_head g2.snake_positions }
        if new_head = f then
          let g4 := { g3 with score := g3.score + 1 }
          let g5 := g4.spawn_food r
          match g5.food with
          | none => (GameState.WIN, g5)
          | some _ => (GameState.RUNNING, { g5 with needs_redraw := true })
        else
          (GameState.RUNNING, { g3 with needs_redraw := true })

/-- One externally observable step: a key event or a timed tick. -/
inductive GameInput where
  | key (k : KeyInput)
  | tick (r : Nat)

/-- Apply one input to the engine. -/
def SnakeGame.step (g : SnakeGame) : GameInput → SnakeGame
  | .key k => g.handle_key k
  | .tick r => (g.update r).2

/-- Apply a sequence of inputs in order. -/
def SnakeGame.runInputs (g : SnakeGame) (l : List GameInput) : SnakeGame :=
  l.foldl SnakeGame.step g

/-- The idle duration of `_curses_main` line 110:
`max(0.0, min(frame_delay / 2, 0.016 - elapsed))`, over exact rationals. -/
def sleep_for (frame_delay elapsed : ℚ) : ℚ :=
  max 0 (min (frame_delay / 2) (16 / 1000 - elapsed))

/-- `self.frame_delay = 1.0 / float(speed)`. -/
def frame_delay_of (speed : Int) : ℚ :=
  1 / (speed : ℚ)

/-- Modelled from the spec, §4.3: `advance(new_head, growing)` taken in the
spec's stated order — first prepend `new_head` to the sequence and the set,
then, if not growing, remove the current tail from the sequence and unset it
in the set.  Kept separate from `SnakeGame.update` so the two orders can be
compared. -/
def advance_spec (snake : List Point) (pos : Finset Point) (new_head : Point)
    (growing : Bool) : List Point × Finset Point :=
  let seq1 := new_head :: snake
  let pos1 := insert new_head pos
  if growing then (seq1, pos1)
  else (seq1.dropLast, pos1.erase seq1.getLastI)

/-- The dual-structure invariant of the Snake data model: nonempty body, no
duplicate cells, and the membership set in lockstep with the sequence. -/
def SnakeInv (g : SnakeGame) : Prop :=
  g.snake ≠ [] ∧ g.snake.Nodup ∧ g.snake_positions = g.snake.toFinset

/-- A concrete mid-game state: a 4-segment snake about to chase its own tail
(head `(0,0)` moving DOWN onto the tail cell `(0,1)`). -/
def chaseG : SnakeGame :=
  { width := 10
    height := 10
    speed := 10
    snake := [⟨0, 0⟩, ⟨1, 0⟩, ⟨1, 1⟩, ⟨0, 1⟩]
    snake_positions := [(⟨0, 0⟩ : Point), ⟨1, 0⟩, ⟨1, 1⟩, ⟨0, 1⟩].toFinset
    direction := .DOWN
    next_direction := .DOWN
    food := some ⟨5, 5⟩
    score := 0
    paused := false
    quit_requested := false
    needs_redraw := false }

/-- A concrete mid-game state: head `(9,5)` moving RIGHT into the wall of a
10×10 board. -/
def wallG : SnakeGame :=
  { width := 10
    height := 10
    speed := 10
    snake := [⟨9, 5⟩, ⟨8, 5⟩, ⟨7, 5⟩]
    snake_positions := [(⟨9, 5⟩ : Point), ⟨8, 5⟩, ⟨7, 5⟩].toFinset
    direction := .RIGHT
    next_direction := .RIGHT
    food := some ⟨0, 0⟩
    score := 0
    paused := false
    quit_requested := false
    needs_redraw := false }

/-- A concrete mid-game state: head `(5,5)` moving RIGHT onto the food at
`(6,5)` (a growing tick). -/
def growG : SnakeGame :=
  { width := 10
    height := 10
    speed := 10
    snake := [⟨5, 5⟩, ⟨4, 5⟩, ⟨3, 5⟩]
    snake_positions := [(⟨5, 5⟩ : Point), ⟨4, 5⟩, ⟨3, 5⟩].toFinset
    direction := .RIGHT
    next_direction := .RIGHT
    food := some ⟨6, 5⟩
    score := 0
    paused := false
    quit_requested := false
    needs_redraw := false }

/-- The state `SnakeGame.init 10 10 10` produces, written out. -/
def baseG : SnakeGame :=
  { width := 10
    height := 10
    speed := 10
    snake := []
    snake_positions := ∅
    direction := .RIGHT
    next_direction := .RIGHT
    food := none
    score := 0
    paused := false
    quit_requested := false
    needs_redraw := true }

/-! ### Helper lemmas -/

theorem mem_empty_cells (g : SnakeGame) (p : Point) :
    p ∈ g.empty_cells ↔ g.inBounds p ∧ p ∉ g.snake_positions := by
  unfold SnakeGame.empty_cells SnakeGame.inBounds
  simp only [List.mem_flatMap, List.mem_filter, List.mem_map, List.mem_range,
    decide_eq_true_eq]
  constructor
  · rintro ⟨y, hy, ⟨x, hx, hfx⟩, hmem⟩
    cases hfx
    refine ⟨⟨?_, ?_, ?_, ?_⟩, hmem⟩ <;> · dsimp only; omega
  · rintro ⟨⟨hx0, hxw, hy0, hyh⟩, hmem⟩
    have hx' : ((p.x.toNat : Int)) = p.x := Int.toNat_of_nonneg hx0
    have hy' : ((p.y.toNat : Int)) = p.y := Int.toNat_of_nonneg hy0
    refine ⟨p.y.toNat, by omega, ⟨p.x.toNat, by omega, ?_⟩, hmem⟩
    rw [hx', hy']

theorem spawn_food_food (g : SnakeGame) (r : Nat) :
    (g.spawn_food r).food = g.empty_cells.get? (r % g.empty_cells.length) := rfl

theorem spawn_food_frame (g : SnakeGame) (r : Nat) :
    (g.spawn_food r).snake = g.snake ∧
    (g.spawn_food r).snake_positions = g.snake_positions ∧
    (g.spawn_food r).width = g.width ∧
    (g.spawn_food r).height = g.height ∧
    (g.spawn_food r).score = g.score ∧
    (g.spawn_food r).direction = g.direction ∧
    (g.spawn_food r).next_direction = g.next_direction := by
  refine ⟨rfl, rfl, rfl, rfl, rfl, rfl, rfl⟩

theorem spawn_food_some_mem (g : SnakeGame) (r : Nat) (p : Point)
    (h : (g.spawn_food r).food = some p) : p ∈ g.empty_cells := by
  rw [spawn_food_food] at h
  exact List.get?_mem h

theorem spawn_food_none_iff (g : SnakeGame) (r : Nat) :
    (g.spawn_food r).food = none ↔ g.empty_cells = [] := by
  rw [spawn_food_food]
  constructor
  · intro h
    by_contra hne
    have hlen : 0 < g.empty_cells.length := List.length_pos.mpr hne
    have hmod : r % g.empty_cells.length < g.empty_cells.length := Nat.mod_lt r hlen
    rw [List.get?_eq_none] at h
    omega
  · intro h
    simp [h]

theorem update_food_none (g : SnakeGame) (r : Nat) (h : g.food = none) :
    g.update r = (GameState.WIN, g) := by
  simp only [SnakeGame.update, h]

theorem update_wall (g : SnakeGame) (r : Nat) (f : Point) (hf : g.food = some f)
    (hb : ¬ g.inBounds g.nextHead) :
    g.update r = (GameState.COLLISION, { g with direction := g.next_direction }) := by
  simp only [SnakeGame.update, hf]
  rw [if_pos]
  intro hcon
  apply hb
  simpa [SnakeGame.nextHead, SnakeGame.inBounds] using hcon

theorem update_selfcol (g : SnakeGame) (r : Nat) (f : Point) (hf : g.food = some f)
    (hb : g.inBounds g.nextHead)
    (hc : g.nextHead ∈ g.snake_positions ∧
      ¬ (¬ g.nextHead = f ∧ g.nextHead = g.snake.getLastI)) :
    g.update r = (GameState.COLLISION, { g with direction := g.next_direction }) := by
  simp only [SnakeGame.update, hf]
  rw [if_neg, if_pos]
  · simpa [SnakeGame.nextHead] using hc
  · simpa [SnakeGame.nextHead, SnakeGame.inBounds] using hb

theorem update_nogrow (g : SnakeGame) (r : Nat) (f : Point) (hf : g.food = some f)
    (hb : g.inBounds g.nextHead)
    (hnc : ¬ (g.nextHead ∈ g.snake_positions ∧
      ¬ (¬ g.nextHead = f ∧ g.nextHead = g.snake.getLastI)))
    (hng : ¬ g.nextHead = f) :
    g.update r = (GameState.RUNNING,
      { g with direction := g.next_direction,
               snake := g.nextHead :: g.snake.dropLast,
               snake_positions :=
                 insert g.nextHead (g.snake_positions.erase g.snake.getLastI),
               needs_redraw := true }) := by
  have hb' := hb
  have hnc' := hnc
  have hng' := hng
  simp only [SnakeGame.nextHead] at hb' hnc' hng'
  simp only [SnakeGame.update, hf]
  rw [if_neg]
  · simp only [if_neg hnc', if_neg hng']
    rfl
  · simpa [SnakeGame.inBounds] using hb'

theorem update_grow (g : SnakeGame) (r : Nat) (f : Point) (hf : g.food = some f)
    (hb : g.inBounds g.nextHead)
    (hnc : ¬ (g.nextHead ∈ g.snake_positions ∧
      ¬ (¬ g.nextHead = f ∧ g.nextHead = g.snake.getLastI)))
    (hg : g.nextHead = f) :
    g.update r =
      (let g5 := SnakeGame.spawn_food
        { g with direction := g.next_direction,
                 snake := g.nextHead :: g.snake,
                 snake_positions := insert g.nextHead g.snake_positions,
                 score := g.score + 1 } r
       match g5.food with
       | none => (GameState.WIN, g5)
       | some _ => (GameState.RUNNING, { g5 with needs_redraw := true })) := by
  have hb' := hb
  have hnc' := hnc
  have hg' := hg
  simp only [SnakeGame.nextHead] at hb' hnc' hg'
  simp only [SnakeGame.update, hf]
  rw [if_neg]
  · simp only [if_neg hnc', if_pos hg', SnakeGame.nextHead]
  · simpa [SnakeGame.inBounds] using hb'

theorem getLastI_eq_getLast (l : List Point) (h : l ≠ []) :
    l.getLastI = l.getLast h := by
  rw [List.getLastI_eq_getLast?, List.getLast?_eq_getLast l h]

theorem snake_split (l : List Point) (h : l ≠ []) :
    l.dropLast ++ [l.getLastI] = l := by
  rw [getLastI_eq_getLast l h]
  exact List.dropLast_append_getLast h

theorem spawn_food_inv (g : SnakeGame) (r : Nat) (h : SnakeInv g) :
    SnakeInv (g.spawn_food r) := h

theorem handle_key_inv (g : SnakeGame) (k : KeyInput) (h : SnakeInv g) :
    SnakeInv (g.handle_key k) := by
  obtain ⟨h1, h2, h3⟩ := h
  cases k with
  | dir d =>
      by_cases hcond : ¬ d.is_opposite g.direction ∧ d ≠ g.direction
      · simp only [SnakeGame.handle_key, if_pos hcond]
        exact ⟨h1, h2, h3⟩
      · simp only [SnakeGame.handle_key, if_neg hcond]
        exact ⟨h1, h2, h3⟩
  | pause => exact ⟨h1, h2, h3⟩
  | quit => exact ⟨h1, h2, h3⟩
  | other => exact ⟨h1, h2, h3⟩

theorem update_inv (g : SnakeGame) (r : Nat) (h : SnakeInv g) :
    SnakeInv (g.update r).2 := by
  obtain ⟨hne, hnd, hpos⟩ := h
  cases hf : g.food with
  | none => rw [update_food_none g r hf]; exact ⟨hne, hnd, hpos⟩
  | some f =>
    by_cases hb : g.inBounds g.nextHead
    · by_cases hc : g.nextHead ∈ g.snake_positions ∧
        ¬ (¬ g.nextHead = f ∧ g.nextHead = g.snake.getLastI)
      · rw [update_selfcol g r f hf hb hc]
        exact ⟨hne, hnd, hpos⟩
      · by_cases hg : g.nextHead = f
        · -- growing tick: the head cell is fresh, nothing is removed
          have hmem : g.nextHead ∉ g.snake_positions := by
            intro hin
            exact hc ⟨hin, by simp [hg]⟩
          rw [update_grow g r f hf hb hc hg]
          have hA : SnakeInv
              { g with direction := g.next_direction,
                       snake := g.nextHead :: g.snake,
                       snake_positions := insert g.nextHead g.snake_positions,
                       score := g.score + 1 } := by
            refine ⟨by simp, List.nodup_cons.mpr ⟨?_, hnd⟩, by simp [hpos]⟩
            intro hin
            exact hmem (hpos ▸ List.mem_toFinset.mpr hin)
          have hA' := spawn_food_inv _ r hA
          dsimp only
          cases h5 : (SnakeGame.spawn_food
              { g with direction := g.next_direction,
                       snake := g.nextHead :: g.snake,
                       snake_positions := insert g.nextHead g.snake_positions,
                       score := g.score + 1 } r).food with
          | none => simpa only [h5] using hA'
          | some q =>
              simp only [h5]
              exact ⟨hA'.1, hA'.2.1, hA'.2.2⟩
        · -- non-growing tick
          have hsplit := snake_split g.snake hne
          have htail_notin : g.snake.getLastI ∉ g.snake.dropLast := by
            intro hin
            have hbad : ¬ (g.snake.dropLast ++ [g.snake.getLastI]).Nodup := by
              simp [List.nodup_append, hin]
            rw [hsplit] at hbad
            exact hbad hnd
          have hdnd : g.snake.dropLast.Nodup := by
            have hnd2 := hnd
            rw [← hsplit, List.nodup_append] at hnd2
            exact hnd2.1
          have hhead_notin : g.nextHead ∉ g.snake.dropLast := by
            rcases not_and_or.mp hc with hout | htc
            · intro hin
              apply hout
              rw [hpos, ← hsplit]
              exact List.mem_toFinset.mpr (List.mem_append_left _ hin)
            · have heq := (not_not.mp htc).2
              rw [heq]
              exact htail_notin
          have herase : g.snake_positions.erase g.snake.getLastI
              = g.snake.dropLast.toFinset := by
            ext a
            rw [Finset.mem_erase, hpos, List.mem_toFinset, List.mem_toFinset]
            constructor
            · rintro ⟨hneq, hmem2⟩
              rw [← hsplit] at hmem2
              rcases List.mem_append.mp hmem2 with hmm | hmm
              · exact hmm
              · rw [List.mem_singleton] at hmm
                exact absurd hmm hneq
            · intro hmem2
              refine ⟨fun he => htail_notin (he ▸ hmem2), ?_⟩
              rw [← hsplit]
              exact List.mem_append_left _ hmem2
          rw [update_nogrow g r f hf hb hc hg]
          refine ⟨by simp, List.nodup_cons.mpr ⟨hhead_notin, hdnd⟩, by simp [herase]⟩
    · rw [update_wall g r f hf hb]
      exact ⟨hne, hnd, hpos⟩

theorem step_inv (g : SnakeGame) (i : GameInput) (h : SnakeInv g) :
    SnakeInv (g.step i) := by
  cases i with
  | key k => exact handle_key_inv g k h
  | tick r => exact update_inv g r h

theorem runInputs_inv (g : SnakeGame) (l : List GameInput) (h : SnakeInv g) :
    SnakeInv (g.runInputs l) := by
  induction l generalizing g with
  | nil => exact h
  | cons i t ih => exact ih _ (step_inv g i h)

theorem reset_snake (g : SnakeGame) (r : Nat) :
    (g.reset_game r).snake =
      [⟨Int.fdiv g.width 2, Int.fdiv g.height 2⟩,
       ⟨Int.fdiv g.width 2 - 1, Int.fdiv g.height 2⟩,
       ⟨Int.fdiv g.width 2 - 2, Int.fdiv g.height 2⟩] := rfl

theorem reset_positions (g : SnakeGame) (r : Nat) :
    (g.reset_game r).snake_positions =
      [(⟨Int.fdiv g.width 2, Int.fdiv g.height 2⟩ : Point),
       ⟨Int.fdiv g.width 2 - 1, Int.fdiv g.height 2⟩,
       ⟨Int.fdiv g.width 2 - 2, Int.fdiv g.height 2⟩].toFinset := rfl

theorem reset_dims (g : SnakeGame) (r : Nat) :
    (g.reset_game r).width = g.width ∧ (g.reset_game r).height = g.height :=
  ⟨rfl, rfl⟩

theorem reset_dirs (g : SnakeGame) (r : Nat) :
    (g.reset_game r).direction = Direction.RIGHT ∧
    (g.reset_game r).next_direction = Direction.RIGHT :=
  ⟨rfl, rfl⟩

theorem reset_inv (g : SnakeGame) (r : Nat) : SnakeInv (g.reset_game r) := by
  refine spawn_food_inv _ r ⟨by simp, ?_, rfl⟩
  generalize Int.fdiv g.width 2 = mx
  generalize Int.fdiv g.height 2 = my
  refine List.nodup_cons.mpr ⟨?_, List.nodup_cons.mpr ⟨?_, List.nodup_singleton _⟩⟩
  · intro hmem
    rcases List.mem_cons.mp hmem with hcon | hcon
    · injection hcon with h1 h2
      omega
    · rw [List.mem_singleton] at hcon
      injection hcon with h1 h2
      omega
  · intro hmem
    rw [List.mem_singleton] at hmem
    injection hmem with h1 h2
    omega

/-! ### Claims -/

/-- C2: in every state reachable from a reset by any sequence of ticks and
key inputs, the companion membership set equals the set of points of the
ordered body sequence, and the body sequence has no duplicates. -/
theorem C2_snake_set_invariant (g : SnakeGame) (r : Nat) (l : List GameInput) :
    ((g.reset_game r).runInputs l).snake_positions
        = ((g.reset_game r).runInputs l).snake.toFinset ∧
    ((g.reset_game r).runInputs l).snake.Nodup := by
  have h := runInputs_inv (g.reset_game r) l (reset_inv g r)
  exact ⟨h.2.2, h.2.1⟩

/-- C1: on a tick with food present, if the new head (the head translated by
the committed direction's delta) is in bounds and lies in the occupied set,
the tick returns COLLISION unless it is not growing and the new head equals
the current tail; in that tail-chase case the tick returns RUNNING and moves
the snake. -/
theorem C1_self_collision_rule (g : SnakeGame) (r : Nat) (f : Point)
    (hf : g.food = some f) (hb : g.inBounds g.nextHead)
    (hmem : g.nextHead ∈ g.snake_positions) :
    (¬ (¬ g.nextHead = f ∧ g.nextHead = g.snake.getLastI) →
        (g.update r).1 = GameState.COLLISION) ∧
    ((¬ g.nextHead = f ∧ g.nextHead = g.snake.getLastI) →
        (g.update r).1 = GameState.RUNNING ∧
        (g.update r).2.snake = g.nextHead :: g.snake.dropLast) := by
  constructor
  · intro hnt
    rw [update_selfcol g r f hf hb ⟨hmem, hnt⟩]
  · rintro ⟨hng, htail⟩
    have hnc : ¬ (g.nextHead ∈ g.snake_positions ∧
        ¬ (¬ g.nextHead = f ∧ g.nextHead = g.snake.getLastI)) := by
      intro hcon
      exact hcon.2 ⟨hng, htail⟩
    rw [update_nogrow g r f hf hb hnc hng]
    exact ⟨rfl, rfl⟩

/-- C1 witness: the tail-chase state `chaseG` really moves without COLLISION. -/
theorem C1_self_collision_rule_witness :
    (chaseG.update 0).1 = GameState.RUNNING ∧
    (chaseG.update 0).2.snake = chaseG.nextHead :: chaseG.snake.dropLast :=
  (C1_self_collision_rule chaseG 0 ⟨5, 5⟩ rfl (by decide) (by decide)).2
    (by decide)

/-- C9: a COLLISION tick changes nothing except committing the pending
direction into the current direction: the whole post-state is the pre-state
with `direction := next_direction`. -/
theorem C9_collision_frame (g : SnakeGame) (r : Nat)
    (h : (g.update r).1 = GameState.COLLISION) :
    (g.update r).2 = { g with direction := g.next_direction } := by
  cases hf : g.food with
  | none =>
      rw [update_food_none g r hf] at h
      exact absurd h (by simp)
  | some f =>
    by_cases hb : g.inBounds g.nextHead
    · by_cases hc : g.nextHead ∈ g.snake_positions ∧
        ¬ (¬ g.nextHead = f ∧ g.nextHead = g.snake.getLastI)
      · rw [update_selfcol g r f hf hb hc, hf]
      · by_cases hg : g.nextHead = f
        · rw [update_grow g r f hf hb hc hg] at h
          dsimp only at h
          cases h5 : (SnakeGame.spawn_food
              { g with direction := g.next_direction,
                       snake := g.nextHead :: g.snake,
                       snake_positions := insert g.nextHead g.snake_positions,
                       score := g.score + 1 } r).food with
          | none => rw [h5] at h; exact absurd h (by simp)
          | some q => rw [h5] at h; exact absurd h (by simp)
        · rw [update_nogrow g r f hf hb hc hg] at h
          exact absurd h (by simp)
    · rw [update_wall g r f hf hb, hf]

/-- C9 witness: the wall-collision state `wallG`. -/
theorem C9_collision_frame_witness :
    (wallG.update 0).2 = { wallG with direction := wallG.next_direction } :=
  C9_collision_frame wallG 0 (by decide)

/-- C8: construction fails (raises the configuration error) exactly when
width < 10, height < 10, or speed is outside 1..30. -/
theorem C8_config_validation (w h s : Int) :
    SnakeGame.init w h s = none ↔ (w < 10 ∨ h < 10 ∨ s < 1 ∨ 30 < s) := by
  unfold SnakeGame.init
  split_ifs with h1 h2 <;> simp <;> omega

/-- C8 witness: width 9 is rejected. -/
theorem C8_config_validation_witness : SnakeGame.init 9 10 10 = none :=
  (C8_config_validation 9 10 10).mpr (by decide)

/-- C10 counterexample: with speed 1 (frame_delay = 1 s) and elapsed = 1 s the
computed idle duration is 0, which is NOT bounded above by
0.016 - elapsed = -0.984; the claimed unconditional upper bound fails. -/
theorem C10_sleep_bound_counterexample :
    sleep_for (frame_delay_of 1) 1 = 0 ∧
    ¬ sleep_for (frame_delay_of 1) 1 ≤ 16 / 1000 - 1 := by
  constructor <;> norm_num [sleep_for, frame_delay_of]

/-- C10 amended: for speed in 1..30, the idle duration is never negative, is
at most half the frame delay, and is bounded above by 0.016 - elapsed
whenever elapsed ≤ 0.016 (otherwise it is clamped to 0). -/
theorem C10_sleep_bounds (speed : Int) (elapsed : ℚ)
    (hs1 : 1 ≤ speed) (hs2 : speed ≤ 30) :
    0 ≤ sleep_for (frame_delay_of speed) elapsed ∧
    sleep_for (frame_delay_of speed) elapsed ≤ frame_delay_of speed / 2 ∧
    (elapsed ≤ 16 / 1000 →
        sleep_for (frame_delay_of speed) elapsed ≤ 16 / 1000 - elapsed) := by
  have hpos : (0 : ℚ) < (speed : ℚ) := by
    exact_mod_cast (by omega : (0 : Int) < speed)
  have hfd : 0 ≤ frame_delay_of speed / 2 := by
    unfold frame_delay_of
    positivity
  refine ⟨le_max_left 0 _, ?_, ?_⟩
  · exact max_le hfd (min_le_left _ _)
  · intro he
    have hnn : 0 ≤ 16 / 1000 - elapsed := by linarith
    exact max_le hnn (min_le_right _ _)

/-- C10 witness: the amended bounds at speed 10 with elapsed 0.01 s. -/
theorem C10_sleep_bounds_witness :
    0 ≤ sleep_for (frame_delay_of 10) (1 / 100) ∧
    sleep_for (frame_delay_of 10) (1 / 100) ≤ frame_delay_of 10 / 2 ∧
    (1 / 100 ≤ (16 : ℚ) / 1000 →
        sleep_for (frame_delay_of 10) (1 / 100) ≤ 16 / 1000 - 1 / 100) :=
  C10_sleep_bounds 10 (1 / 100) (by norm_num) (by norm_num)

/-- C6: a tick that returns RUNNING or WIN grows the snake by one and the
score by one when the new head equals the food, and leaves both unchanged
otherwise. -/
theorem C6_growth_length_score (g : SnakeGame) (r : Nat) (f : Point)
    (hf : g.food = some f) (hne : g.snake ≠ [])
    (hrun : (g.update r).1 = GameState.RUNNING ∨ (g.update r).1 = GameState.WIN) :
    (g.nextHead = f →
        (g.update r).2.snake.length = g.snake.length + 1 ∧
        (g.update r).2.score = g.score + 1) ∧
    (¬ g.nextHead = f →
        (g.update r).2.snake.length = g.snake.length ∧
        (g.update r).2.score = g.score) := by
  by_cases hb : g.inBounds g.nextHead
  · by_cases hc : g.nextHead ∈ g.snake_positions ∧
      ¬ (¬ g.nextHead = f ∧ g.nextHead = g.snake.getLastI)
    · rw [update_selfcol g r f hf hb hc] at hrun
      rcases hrun with hcon | hcon <;> exact absurd hcon (by simp)
    · by_cases hg : g.nextHead = f
      · rw [update_grow g r f hf hb hc hg]
        dsimp only
        cases h5 : (SnakeGame.spawn_food
            { g with direction := g.next_direction,
                     snake := g.nextHead :: g.snake,
                     snake_positions := insert g.nextHead g.snake_positions,
                     score := g.score + 1 } r).food with
        | none =>
            simp only [h5]
            exact ⟨fun _ => ⟨by simp [SnakeGame.spawn_food], rfl⟩,
              fun hcon => absurd hg hcon⟩
        | some q =>
            simp only [h5]
            exact ⟨fun _ => ⟨by simp [SnakeGame.spawn_food], rfl⟩,
              fun hcon => absurd hg hcon⟩
      · rw [update_nogrow g r f hf hb hc hg]
        refine ⟨fun hcon => absurd hcon hg, fun _ => ⟨?_, rfl⟩⟩
        have hlen : g.snake.dropLast.length = g.snake.length - 1 :=
          List.length_dropLast g.snake
        have hpos : 0 < g.snake.length := List.length_pos.mpr hne
        simp only [List.length_cons, hlen]
        omega
  · rw [update_wall g r f hf hb] at hrun
    rcases hrun with hcon | hcon <;> exact absurd hcon (by simp)

/-- C6 witness: the growing tick at `growG` adds one segment and one point. -/
theorem C6_growth_length_score_witness :
    (growG.update 0).2.snake.length = growG.snake.length + 1 ∧
    (growG.update 0).2.score = growG.score + 1 :=
  (C6_growth_length_score growG 0 ⟨6, 5⟩ rfl (by decide)
    (Or.inl (by decide))).1 (by decide)

/-- C3: `_spawn_food` draws from exactly the board cells not occupied by the
snake (so food never lands on the snake), yields none exactly when no empty
cell exists, every empty cell is reachable by some draw, and a tick whose
post-state has no food returns WIN. -/
theorem C3_spawn_food_empty_cells (g : SnakeGame) (r : Nat) :
    (∀ p : Point, p ∈ g.empty_cells ↔ (g.inBounds p ∧ p ∉ g.snake_positions)) ∧
    (∀ p : Point, (g.spawn_food r).food = some p →
        g.inBounds p ∧ p ∉ g.snake_positions) ∧
    ((g.spawn_food r).food = none ↔ g.empty_cells = []) ∧
    (∀ p ∈ g.empty_cells, ∃ s : Nat, (g.spawn_food s).food = some p) ∧
    (∀ f : Point, g.food = some f → (g.update r).2.food = none →
        (g.update r).1 = GameState.WIN) := by
  refine ⟨fun p => mem_empty_cells g p, ?_, spawn_food_none_iff g r, ?_, ?_⟩
  · intro p hp
    exact (mem_empty_cells g p).mp (spawn_food_some_mem g r p hp)
  · intro p hp
    obtain ⟨n, hn⟩ := List.mem_iff_get?.mp hp
    obtain ⟨hlt, -⟩ := List.get?_eq_some.mp hn
    refine ⟨n, ?_⟩
    rw [spawn_food_food, Nat.mod_eq_of_lt hlt, hn]
  · intro f hf hnone
    by_cases hb : g.inBounds g.nextHead
    · by_cases hc : g.nextHead ∈ g.snake_positions ∧
        ¬ (¬ g.nextHead = f ∧ g.nextHead = g.snake.getLastI)
      · rw [update_selfcol g r f hf hb hc] at hnone
        simp [hf] at hnone
      · by_cases hg : g.nextHead = f
        · rw [update_grow g r f hf hb hc hg] at hnone ⊢
          dsimp only at hnone ⊢
          cases h5 : (SnakeGame.spawn_food
              { g with direction := g.next_direction,
                       snake := g.nextHead :: g.snake,
                       snake_positions := insert g.nextHead g.snake_positions,
                       score := g.score + 1 } r).food with
          | none => rfl
          | some q =>
              rw [h5] at hnone
              simp at hnone
        · rw [update_nogrow g r f hf hb hc hg] at hnone
          simp [hf] at hnone
    · rw [update_wall g r f hf hb] at hnone
      simp [hf] at hnone

/-- C3 witness: on `chaseG` the spawn with seed 0 lands on the free in-bounds
cell `(2,0)`. -/
theorem C3_spawn_food_empty_cells_witness :
    chaseG.inBounds ⟨2, 0⟩ ∧ (⟨2, 0⟩ : Point) ∉ chaseG.snake_positions :=
  (C3_spawn_food_empty_cells chaseG 0).2.1 ⟨2, 0⟩ (by decide)

/-- C7: after a reset on a board with width, height ≥ 10 the snake is exactly
the three horizontally aligned centred segments with the head rightmost, both
directions are RIGHT, the score is 0, every segment is in bounds, and no two
segments coincide. -/
theorem C7_reset_layout (g : SnakeGame) (r : Nat)
    (hw : 10 ≤ g.width) (hh : 10 ≤ g.height) :
    (g.reset_game r).snake =
      [⟨Int.fdiv g.width 2, Int.fdiv g.height 2⟩,
       ⟨Int.fdiv g.width 2 - 1, Int.fdiv g.height 2⟩,
       ⟨Int.fdiv g.width 2 - 2, Int.fdiv g.height 2⟩] ∧
    (g.reset_game r).direction = Direction.RIGHT ∧
    (g.reset_game r).next_direction = Direction.RIGHT ∧
    (g.reset_game r).score = 0 ∧
    (∀ p ∈ (g.reset_game r).snake, (g.reset_game r).inBounds p) ∧
    (g.reset_game r).snake.Nodup := by
  have hfw : Int.fdiv g.width 2 = g.width / 2 :=
    Int.fdiv_eq_ediv _ (by norm_num)
  have hfh : Int.fdiv g.height 2 = g.height / 2 :=
    Int.fdiv_eq_ediv _ (by norm_num)
  refine ⟨rfl, rfl, rfl, rfl, ?_, (reset_inv g r).2.1⟩
  intro p hp
  rw [reset_snake] at hp
  unfold SnakeGame.inBounds
  rw [(reset_dims g r).1, (reset_dims g r).2]
  rcases List.mem_cons.mp hp with h1 | hp
  · subst h1
    dsimp only
    rw [hfw, hfh]
    omega
  · rcases List.mem_cons.mp hp with h2 | hp
    · subst h2
      dsimp only
      rw [hfw, hfh]
      omega
    · rw [List.mem_singleton] at hp
      subst hp
      dsimp only
      rw [hfw, hfh]
      omega

/-- C7 witness: the reset layout on the concrete 10×10 board `baseG`. -/
theorem C7_reset_layout_witness :
    (baseG.reset_game 0).snake =
      [⟨Int.fdiv baseG.width 2, Int.fdiv baseG.height 2⟩,
       ⟨Int.fdiv baseG.width 2 - 1, Int.fdiv baseG.height 2⟩,
       ⟨Int.fdiv baseG.width 2 - 2, Int.fdiv baseG.height 2⟩] ∧
    (baseG.reset_game 0).direction = Direction.RIGHT ∧
    (baseG.reset_game 0).next_direction = Direction.RIGHT ∧
    (baseG.reset_game 0).score = 0 ∧
    (∀ p ∈ (baseG.reset_game 0).snake, (baseG.reset_game 0).inBounds p) ∧
    (baseG.reset_game 0).snake.Nodup :=
  C7_reset_layout baseG 0 (by decide) (by decide)

/-- C5 counterexample: on the tail-chase state `chaseG` the program's tick
(erase tail, then insert head) keeps the reused cell in the set, while the
spec-ordered `advance_spec` (insert head, then erase tail) removes it: the
final sets differ, so the claimed equivalence fails in the
new-head-equals-tail case. -/
theorem C5_advance_order_counterexample :
    (chaseG.update 0).1 = GameState.RUNNING ∧
    (chaseG.update 0).2.snake
        = (advance_spec chaseG.snake chaseG.snake_positions chaseG.nextHead false).1 ∧
    (chaseG.update 0).2.snake_positions ≠
      (advance_spec chaseG.snake chaseG.snake_positions chaseG.nextHead false).2 := by
  refine ⟨by decide, by decide, by decide⟩

/-- C5 amended: for every non-colliding tick the program's snake mutation
yields the same final sequence as the spec-ordered `advance_spec`, and the
same final set whenever the tick is growing or the new head differs from the
current tail; in the remaining tail-chase case the two orders disagree on
the set. -/
theorem C5_advance_order_amended (g : SnakeGame) (r : Nat) (f : Point)
    (hf : g.food = some f) (hne : g.snake ≠ [])
    (hb : g.inBounds g.nextHead)
    (hnc : ¬ (g.nextHead ∈ g.snake_positions ∧
      ¬ (¬ g.nextHead = f ∧ g.nextHead = g.snake.getLastI))) :
    (g.update r).2.snake
        = (advance_spec g.snake g.snake_positions g.nextHead
            (decide (g.nextHead = f))).1 ∧
    ((g.nextHead = f ∨ g.nextHead ≠ g.snake.getLastI) →
        (g.update r).2.snake_positions
          = (advance_spec g.snake g.snake_positions g.nextHead
              (decide (g.nextHead = f))).2) := by
  by_cases hg : g.nextHead = f
  · rw [update_grow g r f hf hb hnc hg]
    dsimp only
    rw [decide_eq_true hg]
    cases h5 : (SnakeGame.spawn_food
        { g with direction := g.next_direction,
                 snake := g.nextHead :: g.snake,
                 snake_positions := insert g.nextHead g.snake_positions,
                 score := g.score + 1 } r).food with
    | none => exact ⟨rfl, fun _ => rfl⟩
    | some q => exact ⟨rfl, fun _ => rfl⟩
  · rw [update_nogrow g r f hf hb hnc hg]
    rw [decide_eq_false hg]
    dsimp only
    constructor
    · show g.nextHead :: g.snake.dropLast
        = (advance_spec g.snake g.snake_positions g.nextHead false).1
      unfold advance_spec
      rw [if_neg (by simp)]
      dsimp only
      rw [List.dropLast_cons_of_ne_nil hne]
    · intro hor
      rcases hor with hcon | hnt
      · exact absurd hcon hg
      · show insert g.nextHead (g.snake_positions.erase g.snake.getLastI)
          = (advance_spec g.snake g.snake_positions g.nextHead false).2
        unfold advance_spec
        rw [if_neg (by simp)]
        dsimp only
        have hgl : (g.nextHead :: g.snake).getLastI = g.snake.getLastI := by
          rw [getLastI_eq_getLast (g.nextHead :: g.snake) (by simp),
              List.getLast_cons hne, getLastI_eq_getLast g.snake hne]
        rw [hgl, Finset.erase_insert_of_ne hnt]

/-- C5 witness: the growing tick at `growG`, where both orders agree. -/
theorem C5_advance_order_amended_witness :
    (growG.update 0).2.snake
        = (advance_spec growG.snake growG.snake_positions growG.nextHead
            (decide (growG.nextHead = ⟨6, 5⟩))).1 :=
  (C5_advance_order_amended growG 0 ⟨6, 5⟩ rfl (by decide) (by decide)
    (by decide)).1

/-- C4: a direction request replaces the pending direction (and marks redraw)
exactly when it is neither opposite nor equal to the current direction, a
rejected request leaves the whole state unchanged, and from a fresh reset
(moving RIGHT) requesting LEFT and ticking never yields COLLISION. -/
theorem C4_direction_admission (g : SnakeGame) (d : Direction) :
    ((¬ d.is_opposite g.direction ∧ d ≠ g.direction) →
        g.handle_key (.dir d)
          = { g with next_direction := d, needs_redraw := true }) ∧
    (¬ (¬ d.is_opposite g.direction ∧ d ≠ g.direction) →
        g.handle_key (.dir d) = g) ∧
    (∀ r r2 : Nat, 10 ≤ g.width → 10 ≤ g.height →
        (((g.reset_game r).handle_key (.dir .LEFT)).update r2).1
          ≠ GameState.COLLISION) := by
  refine ⟨?_, ?_, ?_⟩
  · intro hcond
    simp only [SnakeGame.handle_key, if_pos hcond]
  · intro hcond
    simp only [SnakeGame.handle_key, if_neg hcond]
  · intro r r2 hw hh
    have hdir : (g.reset_game r).direction = Direction.RIGHT := (reset_dirs g r).1
    have hkey : (g.reset_game r).handle_key (.dir .LEFT) = g.reset_game r := by
      simp only [SnakeGame.handle_key, hdir]
      rw [if_neg]
      intro hcon
      exact hcon.1 (by decide)
    rw [hkey]
    have hfw : Int.fdiv g.width 2 = g.width / 2 := Int.fdiv_eq_ediv _ (by norm_num)
    have hfh : Int.fdiv g.height 2 = g.height / 2 := Int.fdiv_eq_ediv _ (by norm_num)
    cases hf : (g.reset_game r).food with
    | none =>
        rw [update_food_none _ r2 hf]
        simp
    | some f =>
        have hnh : (g.reset_game r).nextHead
            = ⟨Int.fdiv g.width 2 + 1, Int.fdiv g.height 2 + 0⟩ := rfl
        have hb : (g.reset_game r).inBounds ((g.reset_game r).nextHead) := by
          rw [hnh]
          unfold SnakeGame.inBounds
          rw [(reset_dims g r).1, (reset_dims g r).2]
          dsimp only
          rw [hfw, hfh]
          omega
        have hnc : ¬ ((g.reset_game r).nextHead ∈ (g.reset_game r).snake_positions ∧
            ¬ (¬ (g.reset_game r).nextHead = f ∧
               (g.reset_game r).nextHead = (g.reset_game r).snake.getLastI)) := by
          rintro ⟨hin, -⟩
          rw [reset_positions, List.mem_toFinset, hnh] at hin
          rcases List.mem_cons.mp hin with h1 | hin
          · injection h1 with hx hy
            omega
          · rcases List.mem_cons.mp hin with h1 | hin
            · injection h1 with hx hy
              omega
            · rw [List.mem_singleton] at hin
              injection hin with hx hy
              omega
        by_cases hg : (g.reset_game r).nextHead = f
        · rw [update_grow _ r2 f hf hb hnc hg]
          dsimp only
          cases h5 : (SnakeGame.spawn_food
              { g.reset_game r with
                  direction := (g.reset_game r).next_direction,
                  snake := (g.reset_game r).nextHead :: (g.reset_game r).snake,
                  snake_positions :=
                    insert ((g.reset_game r).nextHead)
                      (g.reset_game r).snake_positions,
                  score := (g.reset_game r).score + 1 } r2).food with
          | none => simp
          | some q => simp
        · rw [update_nogrow _ r2 f hf hb hnc hg]
          simp

/-- C4 witness: the concrete 10×10 board `baseG`, seed 0 for both the reset
spawn and the tick. -/
theorem C4_direction_admission_witness :
    (((baseG.reset_game 0).handle_key (.dir .LEFT)).update 0).1
      ≠ GameState.COLLISION :=
  (C4_direction_admission baseG Direction.LEFT).2.2 0 0 (by decide) (by decide)
